import Mathlib

/-!
Verification of the JAWS project-creation pipeline (`src/unnamed/part_000`,
the `jaws new` command) and of the Serverless runtime base class
(`src/lib/RuntimeBase.js`).

The JavaScript source is shallowly embedded: strings are Lean `String`s
manipulated at the `List Char` level (all inputs of interest are ASCII, where
JavaScript's `toLowerCase`, `trim` and regex character classes agree with the
ASCII operations modelled here); Node's `path.posix` functions are modelled
from Node's algorithm; promise pipelines become `Except`-valued functions that
also return the ordered list of external side effects they performed; external
collaborators (the filesystem, `shortid`, the AWS SDK) enter as explicit
oracle parameters.

A JavaScript quirk that matters below: a `Promise.reject(...)` whose result is
not returned from a `.then` callback does not reject the enclosing chain - the
callback keeps running and resolves normally. The embedding mirrors this by
recording such constructed-but-dropped rejections in a separate "orphans"
list while the function continues. A call to an undefined identifier
(`reject(...)` in `_prepareProjectData`) throws a `ReferenceError`, which
*does* reject the chain; it is modelled as an `Except.error` carrying a
`referenceError` value.
-/

/-- ASCII whitespace as matched by JavaScript's `\s` and `String.prototype.trim`
(restricted to the ASCII range). -/
def jsIsSpace (c : Char) : Bool :=
  c = ' ' || c = '\t' || c = '\n' || c = '\r' || c = '\x0b' || c = '\x0c'

/-- Model of `String.prototype.trim` at the character-list level. -/
def trimCh (s : List Char) : List Char :=
  ((s.dropWhile jsIsSpace).reverse.dropWhile jsIsSpace).reverse

/-- Model of `String.prototype.trim` (ASCII inputs). -/
def jsTrimStr (s : String) : String :=
  String.mk (trimCh s.data)

/-- Model of `String.prototype.toLowerCase` (ASCII inputs): `Char.toLower`
maps `A`-`Z` to `a`-`z` and is the identity elsewhere in ASCII, matching JS. -/
def jsToLowerStr (s : String) : String :=
  String.mk (s.data.map Char.toLower)

/-- Substring containment at the character level:
`containsCh s pat = true` iff `pat` occurs in `s`, i.e. JavaScript's
`s.indexOf(pat) !== -1`. -/
def containsCh : List Char → List Char → Bool
  | s, pat =>
    if pat.isPrefixOf s then true
    else
      match s with
      | [] => false
      | _ :: rest => containsCh rest pat

/-- Model of JavaScript's `s.indexOf(pat) > -1` (equivalently `!== -1`). -/
def containsStr (s pat : String) : Bool :=
  containsCh s.data pat.data

/-- Replacement of the first occurrence of `pat` in a string by `repl`, the
semantics of JavaScript's `String.prototype.replace` with a plain-string
search value. If `pat` does not occur, the string is returned unchanged. -/
def replaceFirstCh (pat repl : List Char) : List Char → List Char
  | [] => if pat.isPrefixOf ([] : List Char) then repl else []
  | c :: rest =>
    if pat.isPrefixOf (c :: rest) then repl ++ (c :: rest).drop pat.length
    else c :: replaceFirstCh pat repl rest

/-- Model of JavaScript's `s.replace(pat, repl)` with a string `pat`. -/
def jsReplaceFirst (s pat repl : String) : String :=
  String.mk (replaceFirstCh pat.data repl.data s.data)

/-- Split a character list at a separator, keeping empty groups (the behavior
of JavaScript's `String.prototype.split` with a single-character string). -/
def splitChars (sep : Char) : List Char → List (List Char)
  | [] => [[]]
  | c :: cs =>
    if c = sep then [] :: splitChars sep cs
    else
      match splitChars sep cs with
      | [] => [[c]]
      | g :: gs => (c :: g) :: gs

/-!
Node's `path.posix` functions, modelled from Node's `normalizeString`
algorithm: a path is split at `/`, empty and `.` segments are dropped, `..`
pops the previous real segment (kept at the front of relative paths, dropped
at the root of absolute ones), the segments are rejoined with `/`, and a
leading `/` (absolute input) and trailing `/` (input ended in one, nonempty
result) are re-attached.
-/

/-- Non-`.`/non-empty segments of a path. -/
def segsOf (p : List Char) : List (List Char) :=
  (splitChars '/' p).filter (fun s => s ≠ [] && s ≠ ['.'])

/-- One step of Node's `normalizeString` segment resolution (`allowAbove` is
Node's `allowAboveRoot`, true for relative paths). The accumulator is kept
reversed. -/
def stepSeg (allowAbove : Bool) (acc : List (List Char)) (s : List Char) : List (List Char) :=
  if s = ['.', '.'] then
    match acc with
    | l :: rest => if l = ['.', '.'] then (if allowAbove then s :: acc else acc) else rest
    | [] => if allowAbove then [s] else []
  else s :: acc

/-- Join segments with `/` (Node rejoins resolved segments this way). -/
def joinSegs : List (List Char) → List Char
  | [] => []
  | [s] => s
  | s :: rest => s ++ '/' :: joinSegs rest

/-- The resolved segments of Node's `normalizeString` (the reversed
accumulator restored to input order). -/
def normSegs (allowAbove : Bool) (p : List Char) : List (List Char) :=
  ((segsOf p).foldl (stepSeg allowAbove) []).reverse

/-- Reassembly step of `path.posix.normalize`: re-attach the leading
separator of an absolute input and the trailing separator of an input that
ended in one; an empty body collapses to `/`, `./` or `.`. -/
def assembleNorm (isAbs trail : Bool) (body : List Char) : List Char :=
  if body = [] then
    if isAbs then ['/'] else if trail then ['.', '/'] else ['.']
  else
    (if isAbs then ['/'] else []) ++ body ++ (if trail then ['/'] else [])

/-- Model of `path.posix.normalize` at the character-list level. -/
def normChars (p : List Char) : List Char :=
  if p = [] then ['.']
  else
    let isAbs : Bool := p.head? == some '/'
    let trail : Bool := p.getLast? == some '/'
    assembleNorm isAbs trail (joinSegs (normSegs (!isAbs) p))

/-- Model of `path.posix.normalize`. -/
def posixNormalize (p : String) : String :=
  String.mk (normChars p.data)

/-- Model of `path.posix.join(a, b)`: empty parts are skipped, the rest are
joined with `/` and normalized; with no parts the result is `.`. -/
def jsJoin2 (a b : String) : String :=
  match ([a, b].filter (fun s => s ≠ "")) with
  | [] => "."
  | parts => posixNormalize (String.intercalate "/" parts)

/-- Model of `path.posix.basename`: the last non-empty `/`-separated segment;
empty for inputs with no such segment (`""`, `"/"`). -/
def jsBasename (p : String) : String :=
  match ((splitChars '/' p.data).filter (fun s => s ≠ [])).getLast? with
  | some s => String.mk s
  | none => ""

/-- The leading-separator strip in `_exclude`
(`relPath.charAt(0) == path.sep ? relPath.substr(1) : relPath`): removes one
leading `/` if present. -/
def stripLeadingSep (s : List Char) : List Char :=
  match s with
  | c :: rest => if c = '/' then rest else c :: rest
  | [] => []

/-!
Embedding of `src/unnamed/part_000` (the `jaws new` command). Each pipeline
step returns its `Except` result together with the ordered list of external
calls it made; `_prepareProjectData` additionally returns the list of
rejections it constructed without returning them (see the header comment).
-/

/-- Error codes of `JawsError` used by `part_000`. -/
inductive ErrCode
  | UNKNOWN
  | INVALID_PROJ_NAME
  | MISSING_AWS_CREDS
deriving DecidableEq, Repr

/-- Failures a pipeline step can abort with: a propagated `JawsError`, a
thrown `ReferenceError` (call to an undefined identifier), or a failure of an
external AWS call (the AWS SDK is an oracle, see `Env`). -/
inductive JsErr
  | jaws (msg : String) (code : ErrCode)
  | referenceError (ident : String)
  | externalCall (tag : String)
deriving DecidableEq, Repr

/-- External calls made by the pipeline, in order. `profilesSet` writes the
credential store (an out-of-scope collaborator per the spec); `createBucket`
and `putEnvFile` are the remote-storage calls of `_createS3JawsStructure`;
`mkdir`/`writeFile` are the local scaffold mutations of
`_createProjectDirectory` and the `jaws.json` write of `_createProjectJson`;
`cfCreateStack`/`monitorCf` are the CloudFormation calls. -/
inductive Event
  | profilesSet (profile region keyId secret : String)
  | createBucket (profile region bucket : String)
  | putEnvFile (profile region bucket projName stage contents : String)
  | mkdir (p : String)
  | writeFile (p : String)
  | cfCreateStack (profile region rootPath name stage email : String)
  | monitorCf
deriving DecidableEq, Repr

/-- Remote-storage calls (bucket ensure and env-file upload). -/
def isStorageEvent : Event → Bool
  | .createBucket _ _ _ => true
  | .putEnvFile _ _ _ _ _ _ => true
  | _ => false

/-- Local filesystem mutations performed by the pipeline itself (the project
scaffold and manifest). Writes done by the external credential store
(`profilesSet`) are collaborator calls, not pipeline filesystem mutations,
following the spec's scoping of credential-file writing as out of scope. -/
def isLocalFsEvent : Event → Bool
  | .mkdir _ => true
  | .writeFile _ => true
  | _ => false

/-- The answers object produced by `_getAnswers`: the five plain fields are
always present (prompted or overridden); the profile and admin-credential
fields are present only on their respective branch, and JavaScript tests them
for truthiness (absent and the empty string are both falsy). -/
structure Answers where
  name : String
  stage : String
  s3Bucket : String
  region : String
  notificationEmail : String
  awsProfile : Option String := none
  awsAdminKeyId : Option String := none
  awsAdminSecretKey : Option String := none

/-- Truthiness of an optional string field (`undefined` and `""` are falsy). -/
def truthy (o : Option String) : Bool :=
  o.getD "" ≠ ""

/-- The module-level `project` object after `_prepareProjectData`
(`rootPath` is filled in later by `_createProjectDirectory`). -/
structure Project where
  name : String
  awsProfile : String
  stage : String
  region : String
  notificationEmail : String
  s3Bucket : String
  rootPath : String := ""
deriving DecidableEq, Repr

/-- Oracles for the external world: `dirExists` is
`fs.existsSync(path.join(process.cwd(), name))`, `shortId` the value
`shortid.generate()` returns, the `Ok` flags whether each AWS call succeeds,
and `cfOutputs` the stack outputs `monitorCfCreate` resolves with. -/
structure Env where
  dirExists : String → Bool
  shortId : String
  createBucketOk : Bool := true
  putEnvFileOk : Bool := true
  cfCreateOk : Bool := true
  cfOutputs : List (String × String) := []

/-- The name normalization of `_prepareProjectData` (line 180):
`answers.name.toLowerCase().trim().replace(/[^a-zA-Z-\d\s:]/g, '')`
`.replace(/\s/g, '-').substring(0, 19)`. Note the first character class
keeps `:` in addition to letters, digits, `-` and whitespace. -/
def normalizeName (name : String) : String :=
  String.mk
    (((((name.data.map Char.toLower) |> trimCh).filter
        (fun c => c.isAlpha || c = '-' || c.isDigit || jsIsSpace c || c = ':')).map
        (fun c => if jsIsSpace c then '-' else c)).take 19)

/-- The `nameOk` test of line 186: `/^([a-zA-Z0-9-]+)$/`. -/
def nameOkCheck (name : String) : Bool :=
  name.data ≠ [] && name.data.all (fun c => c.isAlpha || c.isDigit || c = '-')

/-- The collision suffix of line 195: `shortid.generate().replace(/[_-]/g, '')`. -/
def stripIdChars (s : String) : String :=
  String.mk (s.data.filter (fun c => !(c = '_' || c = '-')))

/-- Model of `_prepareProjectData` (lines 173-229). The stage check (174) and
the name check (187) construct `Promise.reject(...)` without returning it, so
they are recorded as orphans and execution continues; the credential checks
(205, 211) call the undefined identifier `reject`, which throws a
`ReferenceError` and does abort the function. Returns
(result, external calls, orphaned rejections). -/
def prepareProjectData (answers : Answers) (env : Env) :
    Except JsErr Project × List Event × List JsErr :=
  let orphanStage : List JsErr :=
    if jsToLowerStr answers.stage = "local" then
      [.jaws ("Stage " ++ answers.stage ++ " is reserved") .UNKNOWN]
    else []
  let name0 := normalizeName answers.name
  let orphanName : List JsErr :=
    if nameOkCheck name0 then []
    else [.jaws "Project names can only be alphanumeric and -" .INVALID_PROJ_NAME]
  let name1 := if env.dirExists name0 then name0 ++ "-" ++ stripIdChars env.shortId else name0
  let orphans := orphanStage ++ orphanName
  if truthy answers.awsProfile then
    (.ok { name := name1, awsProfile := answers.awsProfile.getD "",
           stage := answers.stage, region := answers.region,
           notificationEmail := jsTrimStr answers.notificationEmail,
           s3Bucket := answers.s3Bucket }, [], orphans)
  else if !truthy answers.awsAdminKeyId then
    (.error (.referenceError "reject"), [], orphans)
  else if !truthy answers.awsAdminSecretKey then
    (.error (.referenceError "reject"), [], orphans)
  else
    (.ok { name := name1, awsProfile := "default",
           stage := answers.stage, region := answers.region,
           notificationEmail := jsTrimStr answers.notificationEmail,
           s3Bucket := answers.s3Bucket },
     [.profilesSet "default" answers.region (answers.awsAdminKeyId.getD "")
        (answers.awsAdminSecretKey.getD "")],
     orphans)

/-- The env-file body written both to S3 and to `back/.env`. -/
def envFileContents (stage : String) : String :=
  "JAWS_STAGE=" ++ stage ++ "\n" ++ "JAWS_DATA_MODEL_PREFIX=" ++ stage

/-- Model of `_createS3JawsStructure` (lines 277-289): ensure the bucket, then
upload the stage env file. Each call is recorded when made; a failing call
aborts the step. -/
def createS3JawsStructure (proj : Project) (env : Env) :
    Except JsErr Unit × List Event :=
  if env.createBucketOk then
    if env.putEnvFileOk then
      (.ok (),
       [.createBucket proj.awsProfile proj.region proj.s3Bucket,
        .putEnvFile proj.awsProfile proj.region proj.s3Bucket proj.name proj.stage
          (envFileContents proj.stage)])
    else
      (.error (.externalCall "putEnvFile"),
       [.createBucket proj.awsProfile proj.region proj.s3Bucket,
        .putEnvFile proj.awsProfile proj.region proj.s3Bucket proj.name proj.stage
          (envFileContents proj.stage)])
  else
    (.error (.externalCall "createBucket"),
     [.createBucket proj.awsProfile proj.region proj.s3Bucket])

/-- Model of `_createProjectDirectory` (lines 236-267): sets
`project.rootPath` (`path.resolve(path.join(path.dirname('.'), name))`, here
kept as the project name relative to the working directory) and creates the
scaffold files and directories. -/
def createProjectDirectory (proj : Project) : Project × List Event :=
  let rootPath := proj.name
  ({ proj with rootPath := rootPath },
   [.writeFile (rootPath ++ "/back/.env"),
    .mkdir (rootPath ++ "/front"),
    .mkdir (rootPath ++ "/tests"),
    .mkdir (rootPath ++ "/back/lambdas"),
    .mkdir (rootPath ++ "/back/lib"),
    .writeFile (rootPath ++ "/admin.env"),
    .writeFile (rootPath ++ "/jaws-cf.json")])

/-- Model of `_createCfStack` (lines 295-317): submit the stack and poll it;
resolves with the stack outputs. -/
def createCfStack (proj : Project) (env : Env) :
    Except JsErr (List (String × String)) × List Event :=
  if env.cfCreateOk then
    (.ok env.cfOutputs,
     [.cfCreateStack proj.awsProfile proj.region proj.rootPath proj.name proj.stage
        proj.notificationEmail, .monitorCf])
  else
    (.error (.externalCall "cfCreateStack"),
     [.cfCreateStack proj.awsProfile proj.region proj.rootPath proj.name proj.stage
        proj.notificationEmail])

/-- The output-scanning loop of `_createProjectJson` (lines 331-341): each
matching key overwrites the variable, so the last match wins. -/
def lookupOutput (outs : List (String × String)) (key : String) : Option String :=
  outs.foldl (fun acc kv => if kv.1 = key then some kv.2 else acc) none

/-- One region-deployment record under a stage of `jaws.json`. -/
structure DeployRecord where
  region : String
  iamRoleArnLambda : String
  iamRoleArnApiGateway : String
deriving DecidableEq, Repr

/-- The `jaws.json` object written by `_createProjectJson`. -/
structure JawsJson where
  name : String
  version : String
  location : String
  author : String
  description : String
  stages : List (String × List DeployRecord)
  envVarBucketName : String
  envVarBucketRegion : String
deriving DecidableEq, Repr

/-- Model of `_createProjectJson` (lines 326-374): builds `jaws.json` (role
ARNs default to `""` when absent), writes it to the project root, and
resolves with it. -/
def createProjectJson (proj : Project) (cfOutputs : Option (List (String × String))) :
    JawsJson × List Event :=
  let lam := (match cfOutputs with
              | none => none
              | some outs => lookupOutput outs "IamRoleArnLambda").getD ""
  let gw := (match cfOutputs with
             | none => none
             | some outs => lookupOutput outs "IamRoleArnApiGateway").getD ""
  ({ name := proj.name,
     version := "0.0.1",
     location := "<enter project's github repository url here>",
     author := "Vera D. Servers <vera@gmail.com> http://vera.io",
     description := proj.name ++
       ": An ambitious, server-less application built with the JAWS framework.",
     stages := [(proj.stage, [{ region := proj.region, iamRoleArnLambda := lam,
                                iamRoleArnApiGateway := gw }])],
     envVarBucketName := proj.s3Bucket,
     envVarBucketRegion := proj.region },
   [.writeFile (proj.rootPath ++ "/jaws.json")])

/-- Model of `module.exports.create` (lines 387-404): the promise chain
`_prepareProjectData` then `_createS3JawsStructure` then
`_createProjectDirectory` then (unless `noExeCf`) `_createCfStack`, ending in
`_createProjectJson`. Returns (result, external calls in order, orphaned
rejections). -/
def create (answers : Answers) (env : Env) (noExeCf : Bool) :
    Except JsErr JawsJson × List Event × List JsErr :=
  match prepareProjectData answers env with
  | (.error e, ev1, orph) => (.error e, ev1, orph)
  | (.ok proj, ev1, orph) =>
    match createS3JawsStructure proj env with
    | (.error e, ev2) => (.error e, ev1 ++ ev2, orph)
    | (.ok _, ev2) =>
      let dirRes := createProjectDirectory proj
      if noExeCf then
        let jsonRes := createProjectJson dirRes.1 none
        (.ok jsonRes.1, ev1 ++ ev2 ++ dirRes.2 ++ jsonRes.2, orph)
      else
        match createCfStack dirRes.1 env with
        | (.error e, ev4) => (.error e, ev1 ++ ev2 ++ dirRes.2 ++ ev4, orph)
        | (.ok outs, ev4) =>
          let jsonRes := createProjectJson dirRes.1 (some outs)
          (.ok jsonRes.1, ev1 ++ ev2 ++ dirRes.2 ++ ev4 ++ jsonRes.2, orph)

/-- The error of an `Except`, if any. -/
def exceptErr {α : Type} (x : Except JsErr α) : Option JsErr :=
  match x with
  | .error e => some e
  | .ok _ => none

/-- The manifest invariant of claim C10: exactly one stage holding exactly one
deployment record, and every record's region equals the bucket region. -/
def manifestInvariant (j : JawsJson) : Bool :=
  (j.stages.length == 1) &&
  j.stages.all (fun s =>
    (s.2.length == 1) && s.2.all (fun r => r.region == j.envVarBucketRegion))

/-!
Embedding of `src/lib/RuntimeBase.js` (`ServerlessRuntimeBase`). Regex
matching (`new RegExp(sRegex).exec(relPath)` being non-null) is abstracted by
an oracle `rmatch : String → String → Bool`; the distribution-directory
filesystem is a `ModelFs` oracle.
-/

/-- A serverless function as `RuntimeBase` consumes it: its on-disk root,
its declared `handler`, and `custom.excludePatterns` / `custom.includePaths`
(absent fields modelled as `none`, the code defaults them with `|| []` and
`|| ['.']`). -/
structure SFunc where
  rootPath : String
  handler : String
  excludePatterns : Option (List String) := none
  includePaths : Option (List String) := none

/-- Modelled from the spec: `func.getRootPath(p)` (defined outside this
repository, on the function class) resolves `p` against the function's
on-disk root, i.e. joins the function's root path with the given relative
path. -/
def getRootPath (func : SFunc) (p : String) : String :=
  jsJoin2 func.rootPath p

/-- The `some`-loop body of `_exclude` (lines 137-149): `relPath` is a
mutable variable of the enclosing closure, re-stripped of one leading
separator on every iteration, so the stripped value is threaded through the
recursion exactly as the source mutates it. -/
def excludeSome (rmatch : String → String → Bool) : List String → List Char → Bool
  | [], _ => false
  | pat :: rest, relPath =>
    let relPath2 := stripLeadingSep relPath
    if rmatch pat (String.mk relPath2) then true else excludeSome rmatch rest relPath2

/-- Model of the closure returned by `_exclude` (lines 126-151), applied to a
directory entry `name` under parent directory `prefixPath`: with no patterns
it returns false; otherwise it tests
`path.join(prefixPath.replace(pathDist, ''), name)` against each pattern. -/
def excludeFn (excludePatterns : Option (List String)) (pathDist : String)
    (rmatch : String → String → Bool) (name prefixPath : String) : Bool :=
  let patterns := excludePatterns.getD []
  if patterns.length == 0 then false
  else excludeSome rmatch patterns (jsJoin2 (jsReplaceFirst prefixPath pathDist "") name).data

/-- The candidate path the spec describes: the entry's path taken relative to
the packaging root, with a leading path separator stripped. -/
def relCandidate (pathDist prefixPath name : String) : String :=
  String.mk (stripLeadingSep (jsJoin2 (jsReplaceFirst prefixPath pathDist "") name).data)

/-- Recursive-copy calls issued to `wrench.copyDirSyncRecursive`. -/
inductive CopyEvent
  | copyDir (src dst : String)
deriving DecidableEq, Repr

/-- The last `/`-separated piece of the handler:
`func.handler.split('/')[func.handler.split('/').length - 1]`. -/
def lastHandlerSeg (handler : String) : String :=
  match (splitChars '/' handler.data).getLast? with
  | some s => String.mk s
  | none => ""

/-- Model of `_copyFunction` (lines 94-119): resolve the handler's on-disk
path, fail if the declared handler does not occur in it, otherwise derive the
package root and recursively copy it into the distribution directory. -/
def copyFunction (func : SFunc) (pathDist : String) :
    Except String Unit × List CopyEvent :=
  let handlerFullPath := getRootPath func (lastHandlerSeg func.handler)
  if containsStr handlerFullPath func.handler = false then
    (.error ("This function's handler is invalid and not in the file system: " ++ func.handler),
     [])
  else
    let packageRoot := jsReplaceFirst handlerFullPath func.handler ""
    (.ok (), [.copyDir packageRoot pathDist])

/-- Model of `_copyDir` (lines 153-173), whose body is identical to
`_copyFunction`. -/
def copyDirStep (func : SFunc) (pathDist : String) :
    Except String Unit × List CopyEvent :=
  let handlerFullPath := getRootPath func (lastHandlerSeg func.handler)
  if containsStr handlerFullPath func.handler = false then
    (.error ("This function's handler is invalid and not in the file system: " ++ func.handler),
     [])
  else
    let packageRoot := jsReplaceFirst handlerFullPath func.handler ""
    (.ok (), [.copyDir packageRoot pathDist])

/-- An entry of the artifact manifest (`compressPaths`): archive name and
absolute source path. -/
structure CompressPath where
  name : String
  path : String
deriving DecidableEq, Repr

/-- What `fs.lstatSync` reports for a path. -/
inductive FNode
  | file
  | dir
deriving DecidableEq, Repr

/-- Filesystem oracle for `_generateIncludePaths`: `lstat` is
`fs.lstatSync` (`none` = the path does not exist, so the call throws), and
`readdirRec` is `wrench.readdirSyncRecursive`, the recursive listing of a
directory's entries as relative paths in enumeration order. -/
structure ModelFs where
  lstat : String → Option FNode
  readdirRec : String → List String

/-- The fixed ignore list of `_generateIncludePaths` (line 181). -/
def ignoreList : List String := [".DS_Store"]

/-- The ignore test of lines 214-216:
`file.toLowerCase().indexOf(ignore[i]) > -1`. Note the file name is
lowercased but the ignore entry `.DS_Store` is not. -/
def ignoredFile (file : String) : Bool :=
  ignoreList.any (fun ig => containsStr (jsToLowerStr file) ig)

/-- The directory branch of `_generateIncludePaths` (lines 205-229): walk the
recursive listing, skip ignored names, and keep plain files under the archive
name `path.join(dirname, file)`. -/
def collectDirFiles (fs : ModelFs) (dirname fullPath : String) : List CompressPath :=
  (fs.readdirRec fullPath).filterMap (fun file =>
    if ignoredFile file then none
    else
      let filePath := jsJoin2 fullPath file
      if fs.lstat filePath = some FNode.file then
        some { name := jsJoin2 dirname file, path := filePath }
      else none)

/-- One iteration of the `includePaths.forEach` of `_generateIncludePaths`
(lines 188-230): resolve the include path (throwing if `lstatSync` does), add
a single entry for a file, walk recursively for a directory. `path.resolve`
on the already-absolute normalized join is the identity, so `fullPath` is
`path.join(pathDist, p)` normalized. -/
def processInclude (fs : ModelFs) (pathDist p : String) :
    Except String (List CompressPath) :=
  let fullPath := jsJoin2 pathDist p
  match fs.lstat fullPath with
  | none => .error ("Cant find includePath " ++ p)
  | some FNode.file => .ok [{ name := p, path := fullPath }]
  | some FNode.dir => .ok (collectDirFiles fs (jsBasename p) fullPath)

/-- Model of `_generateIncludePaths` (lines 179-233): fold the include paths
(defaulting to `['.']`), concatenating the collected entries in order. -/
def generateIncludePaths (func : SFunc) (pathDist : String) (fs : ModelFs) :
    Except String (List CompressPath) :=
  (func.includePaths.getD ["."]).foldlM
    (fun acc p => (processInclude fs pathDist p).map (fun l => acc ++ l)) []

/-- Model of the base `build` (lines 46-48): `return BbPromise.resolve();` -
it resolves with no value and performs no packaging action. The manifest slot
is `Option`al so the result is comparable with a packaging pipeline that
resolves with a manifest. -/
def runtimeBuild (func : SFunc) (stage region : String) :
    Except String (Option (List CompressPath)) × List CopyEvent :=
  (.ok none, [])

/-- Modelled from the spec: the PackagingEngine pipeline of spec section 4.4
(the orchestrator itself is not in `src/`; its steps are the source helpers
modelled above): copy the package root into the given fresh distribution
directory with exclusions (`_copyDir`), run the post-copy hook
(`_afterCopyDir`, a no-op), then collect the artifact manifest
(`_generateIncludePaths`) over the distribution directory, whose resulting
contents are the oracle `fsAfter`. -/
def specPackagingBuild (func : SFunc) (stage region pathDist : String)
    (fsAfter : ModelFs) :
    Except String (Option (List CompressPath)) × List CopyEvent :=
  match copyDirStep func pathDist with
  | (.error e, ev) => (.error e, ev)
  | (.ok _, ev) =>
    match generateIncludePaths func pathDist fsAfter with
    | .error e => (.error e, ev)
    | .ok m => (.ok (some m), ev)

/-- The option-level view of an `Except` result (used where the `Except`
itself has no decidable equality). -/
def exceptToOption {ε α : Type} (x : Except ε α) : Option α :=
  match x with
  | .error _ => none
  | .ok a => some a

/-!
Concrete inputs used by the claim theorems, their witnesses and
counterexamples.
-/

/-- An environment where no directory collides and every AWS call succeeds. -/
def env0 : Env := { dirExists := fun _ => false, shortId := "abc" }

/-- An environment whose bucket-ensure call fails. -/
def envBucketFail : Env :=
  { dirExists := fun _ => false, shortId := "abc", createBucketOk := false }

/-- A working directory holding both `demo` and `demo-abc`, with
`shortid.generate()` returning `abc`. -/
def envCollide : Env :=
  { dirExists := fun n => n == "demo" || n == "demo-abc", shortId := "abc" }

/-- A working directory holding only `demo`. -/
def envDemoOnly : Env := { dirExists := fun n => n == "demo", shortId := "abc" }

/-- Answers with the reserved stage `local` and an existing profile. -/
def ansLocal : Answers :=
  { name := "demo", stage := "local", s3Bucket := "bkt", region := "us-east-1",
    notificationEmail := "", awsProfile := some "default" }

/-- Answers whose project name contains `:`, a character outside
`[a-zA-Z0-9-]` that the normalization regex keeps. -/
def ansColon : Answers :=
  { name := "a:b", stage := "dev", s3Bucket := "bkt", region := "us-east-1",
    notificationEmail := "", awsProfile := some "p" }

/-- Answers with no chosen profile and no admin access key id. -/
def ansNoCreds : Answers :=
  { name := "demo", stage := "dev", s3Bucket := "bkt", region := "us-east-1",
    notificationEmail := "", awsAdminSecretKey := some "sk" }

/-- Well-formed answers with an existing profile. -/
def ansOk : Answers :=
  { name := "demo", stage := "dev", s3Bucket := "bkt", region := "us-east-1",
    notificationEmail := "", awsProfile := some "p" }

/-- The project record `_prepareProjectData` produces for `ansOk` under
`envCollide` (name suffixed with the stripped short id). -/
def projDemoAbc : Project :=
  { name := "demo-abc", awsProfile := "p", stage := "dev", region := "us-east-1",
    notificationEmail := "", s3Bucket := "bkt" }

/-- The manifest a fully successful `create ansOk env0 true` run writes. -/
def jawsDemo : JawsJson :=
  { name := "demo", version := "0.0.1",
    location := "<enter project's github repository url here>",
    author := "Vera D. Servers <vera@gmail.com> http://vera.io",
    description := "demo: An ambitious, server-less application built with the JAWS framework.",
    stages := [("dev", [{ region := "us-east-1", iamRoleArnLambda := "",
                          iamRoleArnApiGateway := "" }])],
    envVarBucketName := "bkt", envVarBucketRegion := "us-east-1" }

/-- A distribution directory holding exactly `index.js`, `lib/helper.js` and
`.DS_Store` (claim C7's root). -/
def fs7 : ModelFs :=
  { lstat := fun p =>
      if p == "/d" then some FNode.dir
      else if p == "/d/.DS_Store" || p == "/d/index.js" || p == "/d/lib/helper.js" then
        some FNode.file
      else if p == "/d/lib" then some FNode.dir
      else none,
    readdirRec := fun p =>
      if p == "/d" then [".DS_Store", "index.js", "lib", "lib/helper.js"] else [] }

/-- A function whose handler resolves inside its package root. -/
def funcPlain : SFunc := { rootPath := "/d0", handler := "handler.handler" }

/-- A function whose declared handler path (`sub/handler.handler`) does not
occur in the resolved on-disk handler path (`/proj/handler.handler`), i.e.
the entry point does not resolve inside the package root. -/
def funcBadHandler : SFunc := { rootPath := "/proj", handler := "sub/handler.handler" }

/-- A concrete regex-match oracle for witnesses: the pattern `^tests/`
matches paths beginning with `tests/`, mirroring the anchored-match example
of the spec; every other pattern matches nothing. -/
def rmTests : String → String → Bool := fun pat s =>
  pat == "^tests/" && "tests/".data.isPrefixOf s.data

/-!
Claim theorems.
-/

/-!
Sanity checks of the path model against Node's `path.posix` behavior.
-/

example : posixNormalize "/d/." = "/d" := by decide
example : jsJoin2 "." "lib/helper.js" = "lib/helper.js" := by decide
example : jsJoin2 "//a" "b" = "/a/b" := by decide
example : jsJoin2 "/d" "." = "/d" := by decide
example : posixNormalize "a/../../b" = "../b" := by decide
example : posixNormalize "/a/../../b" = "/b" := by decide
example : jsBasename "." = "." := by decide
example : jsReplaceFirst "/d0/handler.handler" "handler.handler" "" = "/d0/" := by decide
example : containsStr ".ds_store" ".DS_Store" = false := by decide

/-- Claim C1: the claim says that for stage `local` (any case) the create
pipeline fails with the reserved-stage error before any side effect, with
`_prepareProjectData` not resolving. In the code the `Promise.reject` of line
175 is constructed but not returned, so `_prepareProjectData` resolves (no
error), the rejection is orphaned, and the pipeline goes on to perform the
remote bucket call: the code contradicts its own reserved-stage error. -/
theorem stageLocal_rejection_not_propagated :
    exceptErr (prepareProjectData ansLocal env0).1 = none
    ∧ (prepareProjectData ansLocal env0).2.2 =
        [JsErr.jaws "Stage local is reserved" ErrCode.UNKNOWN]
    ∧ (create ansLocal env0 true).2.1.any isStorageEvent = true :=
  ⟨by decide, by decide, by decide⟩

/-- Claim C2: the claim says `_prepareProjectData` never resolves with a
`project.name` containing a character outside `[a-zA-Z0-9-]`. The
normalization regex keeps `:`, the `InvalidProjectName` rejection of line 188
is constructed but not returned, and for the input name `a:b` the function
resolves with `project.name = "a:b"`, which fails the code's own
`[a-zA-Z0-9-]+` test. -/
theorem invalidName_resolves_with_colon :
    (exceptToOption (prepareProjectData ansColon env0).1).map Project.name = some "a:b"
    ∧ nameOkCheck "a:b" = false
    ∧ (prepareProjectData ansColon env0).2.2 =
        [JsErr.jaws "Project names can only be alphanumeric and -" ErrCode.INVALID_PROJ_NAME] :=
  ⟨by decide, by decide, by decide⟩

/-- Claim C3: the claim says a missing admin key with no chosen profile fails
with the `MissingCredentials` error and aborts the pipeline. In the code the
checks call the undefined identifier `reject` (lines 206, 212), so the
pipeline does abort - but with a thrown `ReferenceError`, not with the
`MISSING_AWS_CREDS` `JawsError` the code constructs as its argument. -/
theorem missingCreds_reference_error :
    exceptErr (prepareProjectData ansNoCreds env0).1 = some (JsErr.referenceError "reject")
    ∧ exceptErr (create ansNoCreds env0 true).1 = some (JsErr.referenceError "reject") :=
  ⟨by decide, by decide⟩

/-- Claim C7: the claim says the manifest for a root holding `index.js`,
`lib/helper.js` and `.DS_Store` has exactly two entries, `.DS_Store` having
been filtered. The ignore test of line 215 compares the lowercased file name
against the mixed-case literal `.DS_Store`, so it never fires: the manifest
has three entries and `.DS_Store` survives, contradicting the code's own
ignore list. -/
theorem dsstore_not_filtered :
    exceptToOption (generateIncludePaths funcPlain "/d" fs7) =
      some [⟨".DS_Store", "/d/.DS_Store"⟩, ⟨"index.js", "/d/index.js"⟩,
            ⟨"lib/helper.js", "/d/lib/helper.js"⟩]
    ∧ ignoredFile ".DS_Store" = false :=
  ⟨by decide, by decide⟩

/-- Claim C5, counterexample: with directories `demo` and `demo-abc` existing
and `shortid.generate()` returning `abc`, creating project `demo` resolves
with the suffixed name `demo-abc`, which still collides with an existing
path - the code never re-checks the suffixed name, so the claim's
"does not collide with any existing path" is false. -/
theorem collision_suffix_may_collide :
    (prepareProjectData ansOk envCollide).1 = .ok projDemoAbc
    ∧ envCollide.dirExists (normalizeName ansOk.name) = true
    ∧ envCollide.dirExists projDemoAbc.name = true :=
  ⟨by rfl, by decide, by decide⟩

/-- Claim C9, counterexample: at a concrete function and distribution
directory, the base `build` resolves with no manifest and performs no copy,
while the spec's PackagingEngine pipeline copies the package root and
resolves with a manifest: the default `build` is not behaviorally equal to
the packaging pipeline. -/
theorem base_build_differs_from_packaging :
    exceptToOption (runtimeBuild funcPlain "dev" "us-east-1").1 = some none
    ∧ exceptToOption (specPackagingBuild funcPlain "dev" "us-east-1" "/d" fs7).1 =
        some (some [⟨".DS_Store", "/d/.DS_Store"⟩, ⟨"index.js", "/d/index.js"⟩,
                    ⟨"lib/helper.js", "/d/lib/helper.js"⟩])
    ∧ (runtimeBuild funcPlain "dev" "us-east-1").2 = []
    ∧ (specPackagingBuild funcPlain "dev" "us-east-1" "/d" fs7).2 =
        [CopyEvent.copyDir "/d0/" "/d"] :=
  ⟨by decide, by decide, by decide, by decide⟩

/-- Claim C9, amended: the base runtime's `build`, when not overridden, does
not delegate to the packaging pipeline: it resolves immediately with no
artifact manifest and performs no packaging action, for every function, stage
and region; the pipeline of spec section 4.4 exists as separate helper
methods that a concrete runtime must invoke itself. -/
theorem base_build_noop (func : SFunc) (stage region : String) :
    runtimeBuild func stage region = (.ok none, []) :=
  rfl

/-- Claim C8: if the function's declared handler does not occur in the
resolved on-disk handler path (the code's on-disk containment test for "the
entry point resolves to a path physically inside the package root"), then
`_copyFunction` fails with the invalid-handler error and issues no copy. -/
theorem invalid_handler_no_copy (func : SFunc) (pathDist : String)
    (h : containsStr (getRootPath func (lastHandlerSeg func.handler)) func.handler = false) :
    (copyFunction func pathDist).1 =
      .error ("This function's handler is invalid and not in the file system: " ++ func.handler)
    ∧ (copyFunction func pathDist).2 = [] := by
  simp [copyFunction, h]

/-- Claim C8, witness: a function whose handler `sub/handler.handler` resolves
to `/proj/handler.handler`, outside its package root. -/
theorem invalid_handler_no_copy_check :
    (copyFunction funcBadHandler "/dist").1 =
      .error ("This function's handler is invalid and not in the file system: "
        ++ funcBadHandler.handler)
    ∧ (copyFunction funcBadHandler "/dist").2 = [] :=
  invalid_handler_no_copy funcBadHandler "/dist" (by decide)

/-- Helper: the manifest `_createProjectJson` builds always satisfies the
region/stage-shape invariant, whatever the project data and stack outputs. -/
theorem createProjectJson_invariant (proj : Project)
    (outs : Option (List (String × String))) :
    manifestInvariant (createProjectJson proj outs).1 = true := by
  simp [createProjectJson, manifestInvariant]

/-- Claim C10: every manifest a successful `create` run resolves with has
exactly one stage key holding exactly one deployment record, and the record's
region equals the storage-bucket descriptor's region. -/
theorem manifest_region_invariant (answers : Answers) (env : Env) (noExeCf : Bool)
    (j : JawsJson) (h : (create answers env noExeCf).1 = .ok j) :
    manifestInvariant j = true := by
  unfold create at h
  dsimp only at h
  split at h
  · simp at h
  · split at h
    · simp at h
    · split at h
      · simp at h
        rw [← h]
        exact createProjectJson_invariant _ _
      · split at h
        · simp at h
        · simp at h
          rw [← h]
          exact createProjectJson_invariant _ _

/-- Claim C10, witness: the manifest of a concrete successful run. -/
theorem manifest_region_invariant_check : manifestInvariant jawsDemo = true :=
  manifest_region_invariant ansOk env0 true jawsDemo (by rfl)

/-- Helper: a list satisfying a conjunction of Boolean predicates satisfies
the left one. -/
theorem all_and_left {α : Type} {l : List α} {f g : α → Bool}
    (h : l.all (fun x => f x && g x) = true) : l.all f = true := by
  simp only [List.all_eq_true, Bool.and_eq_true] at h ⊢
  exact fun x hx => (h x hx).1

/-- Helper: a list satisfying a conjunction of Boolean predicates satisfies
the right one. -/
theorem all_and_right {α : Type} {l : List α} {f g : α → Bool}
    (h : l.all (fun x => f x && g x) = true) : l.all g = true := by
  simp only [List.all_eq_true, Bool.and_eq_true] at h ⊢
  exact fun x hx => (h x hx).2

/-- Helper: every call `_prepareProjectData` makes is a credential-store
write - neither a remote-storage call nor a local filesystem mutation. -/
theorem prep_events_plain (answers : Answers) (env : Env) :
    (prepareProjectData answers env).2.1.all
      (fun e => !isStorageEvent e && !isLocalFsEvent e) = true := by
  unfold prepareProjectData
  dsimp only
  repeat' split
  all_goals rfl

/-- Helper: `_createS3JawsStructure` performs no local filesystem mutation. -/
theorem s3_events_not_local (proj : Project) (env : Env) :
    (createS3JawsStructure proj env).2.all (fun e => !isLocalFsEvent e) = true := by
  unfold createS3JawsStructure
  repeat' split <;> simp [isLocalFsEvent]

/-- Helper: `_createProjectDirectory` performs no remote-storage call. -/
theorem dir_events_not_storage (proj : Project) :
    (createProjectDirectory proj).2.all (fun e => !isStorageEvent e) = true := by
  simp [createProjectDirectory, isStorageEvent]

/-- Helper: `_createCfStack` performs no remote-storage call. -/
theorem cf_events_not_storage (proj : Project) (env : Env) :
    (createCfStack proj env).2.all (fun e => !isStorageEvent e) = true := by
  unfold createCfStack
  repeat' split <;> simp [isStorageEvent]

/-- Helper: `_createProjectJson` performs no remote-storage call. -/
theorem json_events_not_storage (proj : Project)
    (outs : Option (List (String × String))) :
    (createProjectJson proj outs).2.all (fun e => !isStorageEvent e) = true := by
  simp [createProjectJson, isStorageEvent]

/-- Helper: when the bucket-ensure or env-file upload fails,
`_createS3JawsStructure` does not resolve. -/
theorem s3_fail_not_ok (proj : Project) (env : Env) (u : Unit) (ev2 : List Event)
    (hfail : env.createBucketOk = false ∨ env.putEnvFileOk = false)
    (heq : createS3JawsStructure proj env = (.ok u, ev2)) : False := by
  unfold createS3JawsStructure at heq
  rcases hfail with h | h
  · rw [h] at heq
    simp at heq
  · rw [h] at heq
    split at heq <;> simp at heq

/-- Claim C4: in every run of `create`, the trace of external calls splits
into a first part with no local filesystem mutation followed by a part with
no remote-storage call (the bucket ensure and env-file upload complete before
any local mutation), and if either storage call fails the whole trace
contains no local filesystem mutation, so no pipeline-created local directory
or file exists. Local filesystem mutations are the scaffold and manifest
writes; the credential-store write of `_prepareProjectData` is a call to the
out-of-scope credential-store collaborator, per the spec's scoping. -/
theorem storage_precedes_local_fs (answers : Answers) (env : Env) (noExeCf : Bool) :
    (∃ pre post, (create answers env noExeCf).2.1 = pre ++ post
      ∧ pre.all (fun e => !isLocalFsEvent e) = true
      ∧ post.all (fun e => !isStorageEvent e) = true)
    ∧ ((env.createBucketOk = false ∨ env.putEnvFileOk = false) →
       (create answers env noExeCf).2.1.all (fun e => !isLocalFsEvent e) = true) := by
  have hprep := prep_events_plain answers env
  constructor
  · unfold create
    dsimp only
    split
    case _ e ev1 orph heq =>
      rw [heq] at hprep
      exact ⟨ev1, [], by simp, all_and_right hprep, by simp⟩
    case _ proj ev1 orph heq =>
      rw [heq] at hprep
      have hs3 := s3_events_not_local proj env
      split
      case _ e ev2 heq2 =>
        rw [heq2] at hs3
        refine ⟨ev1 ++ ev2, [], by simp, ?_, by simp⟩
        simp [List.all_append, all_and_right hprep, hs3]
      case _ u ev2 heq2 =>
        rw [heq2] at hs3
        have hdir := dir_events_not_storage proj
        split
        · refine ⟨ev1 ++ ev2,
            (createProjectDirectory proj).2
              ++ (createProjectJson (createProjectDirectory proj).1 none).2,
            by simp, ?_, ?_⟩
          · simp [List.all_append, all_and_right hprep, hs3]
          · simp [List.all_append, hdir, json_events_not_storage]
        · split
          case _ e ev4 heq4 =>
            have hcf := cf_events_not_storage (createProjectDirectory proj).1 env
            rw [heq4] at hcf
            refine ⟨ev1 ++ ev2, (createProjectDirectory proj).2 ++ ev4,
              by simp, ?_, ?_⟩
            · simp [List.all_append, all_and_right hprep, hs3]
            · simp [List.all_append, hdir, hcf]
          case _ outs ev4 heq4 =>
            have hcf := cf_events_not_storage (createProjectDirectory proj).1 env
            rw [heq4] at hcf
            refine ⟨ev1 ++ ev2,
              (createProjectDirectory proj).2 ++ ev4
                ++ (createProjectJson (createProjectDirectory proj).1 (some outs)).2,
              by simp, ?_, ?_⟩
            · simp [List.all_append, all_and_right hprep, hs3]
            · simp [List.all_append, hdir, hcf, json_events_not_storage]
  · intro hfail
    unfold create
    dsimp only
    split
    case _ e ev1 orph heq =>
      rw [heq] at hprep
      exact all_and_right hprep
    case _ proj ev1 orph heq =>
      rw [heq] at hprep
      have hs3 := s3_events_not_local proj env
      split
      case _ e ev2 heq2 =>
        rw [heq2] at hs3
        simp [List.all_append, all_and_right hprep, hs3]
      case _ u ev2 heq2 =>
        exact (s3_fail_not_ok proj env u ev2 hfail heq2).elim

/-- Claim C4, witness: with a failing bucket-ensure call, a concrete run
performs no local filesystem mutation. -/
theorem storage_precedes_local_fs_check :
    (create ansOk envBucketFail true).2.1.all (fun e => !isLocalFsEvent e) = true :=
  (storage_precedes_local_fs ansOk envBucketFail true).2 (Or.inl rfl)

/-- Helper: when a directory with the normalized name exists,
`_prepareProjectData` resolves (if it does) with the suffixed name. -/
theorem prep_ok_name (answers : Answers) (env : Env) (p : Project)
    (hex : env.dirExists (normalizeName answers.name) = true)
    (hok : (prepareProjectData answers env).1 = .ok p) :
    p.name = normalizeName answers.name ++ "-" ++ stripIdChars env.shortId := by
  unfold prepareProjectData at hok
  dsimp only at hok
  simp only [hex, if_true] at hok
  repeat' split at hok
  all_goals dsimp only at hok
  all_goals first
    | rw [← Except.ok.inj hok]
    | simp at hok

/-- Claim C5, amended: when a directory with the normalized name already
exists, `_prepareProjectData` renames the project to
`<name>-<generated id stripped of "_" and "-">` during validation - before
the pipeline performs any remote-storage call or local filesystem mutation -
and the new name differs from the colliding one; the suffix is non-empty
whenever the generated id contains a character other than `_` and `-`, and
the suffixed name is not re-checked against the filesystem (see the
counterexample: it may still collide with another existing path). -/
theorem collision_suffix_appended (answers : Answers) (env : Env) (p : Project)
    (hex : env.dirExists (normalizeName answers.name) = true)
    (hok : (prepareProjectData answers env).1 = .ok p)
    (hid : env.shortId.data.any (fun c => !(c = '_' || c = '-')) = true) :
    p.name = normalizeName answers.name ++ "-" ++ stripIdChars env.shortId
    ∧ stripIdChars env.shortId ≠ ""
    ∧ p.name ≠ normalizeName answers.name
    ∧ (prepareProjectData answers env).2.1.all
        (fun e => !isStorageEvent e && !isLocalFsEvent e) = true := by
  have hname := prep_ok_name answers env p hex hok
  have hsuf : stripIdChars env.shortId ≠ "" := by
    simp only [List.any_eq_true] at hid
    obtain ⟨c, hc, hpred⟩ := hid
    have hmem : c ∈ env.shortId.data.filter (fun c => !(c = '_' || c = '-')) :=
      List.mem_filter.mpr ⟨hc, hpred⟩
    intro heq
    unfold stripIdChars at heq
    rw [show ("" : String) = String.mk [] from rfl] at heq
    have hnil : env.shortId.data.filter (fun c => !(c = '_' || c = '-')) = [] := by
      injection heq
    rw [hnil] at hmem
    exact absurd hmem (List.not_mem_nil c)
  refine ⟨hname, hsuf, ?_, prep_events_plain answers env⟩
  rw [hname]
  intro hcontra
  have hlen := congrArg String.length hcontra
  rw [String.length_append, String.length_append] at hlen
  have h1 : ("-" : String).length = 1 := rfl
  rw [h1] at hlen
  omega

/-- Claim C5, witness: with only `demo` existing and the id `abc`, the
project is renamed to `demo-abc` before any side effect. -/
theorem collision_suffix_appended_check :
    projDemoAbc.name = normalizeName ansOk.name ++ "-" ++ stripIdChars envDemoOnly.shortId
    ∧ stripIdChars envDemoOnly.shortId ≠ ""
    ∧ projDemoAbc.name ≠ normalizeName ansOk.name
    ∧ (prepareProjectData ansOk envDemoOnly).2.1.all
        (fun e => !isStorageEvent e && !isLocalFsEvent e) = true :=
  collision_suffix_appended ansOk envDemoOnly projDemoAbc (by decide) (by rfl) (by decide)

/-- A well-formed path segment: non-empty and separator-free. -/
def goodSeg (g : List Char) : Prop := g ≠ [] ∧ '/' ∉ g

/-- Helper: pieces produced by `splitChars` never contain the separator. -/
theorem splitChars_no_sep (sep : Char) (p : List Char) :
    ∀ g ∈ splitChars sep p, sep ∉ g := by
  induction p with
  | nil =>
    intro g hg
    simp only [splitChars, List.mem_singleton] at hg
    simp [hg]
  | cons c cs ih =>
    intro g hg
    simp only [splitChars] at hg
    by_cases hc : c = sep
    · rw [if_pos hc] at hg
      rcases List.mem_cons.mp hg with h | h
      · subst h; simp
      · exact ih g h
    · rw [if_neg hc] at hg
      rcases hsplit : splitChars sep cs with _ | ⟨g0, gs⟩
      · rw [hsplit] at hg
        simp only [List.mem_singleton] at hg
        subst hg
        simp only [List.mem_singleton]
        exact fun h => hc h.symm
      · rw [hsplit] at hg
        rcases List.mem_cons.mp hg with h | h
        · subst h
          intro hmem
          rcases List.mem_cons.mp hmem with h2 | h2
          · exact hc h2.symm
          · exact ih g0 (by rw [hsplit]; exact List.mem_cons_self g0 gs) h2
        · exact ih g (by rw [hsplit]; exact List.mem_cons.mpr (Or.inr h))

/-- Helper: the filtered segments of a path are well formed. -/
theorem segsOf_good (p : List Char) : ∀ g ∈ segsOf p, goodSeg g := by
  intro g hg
  unfold segsOf at hg
  obtain ⟨hmem, hcond⟩ := List.mem_filter.mp hg
  simp only [Bool.and_eq_true, decide_eq_true_eq] at hcond
  exact ⟨hcond.1, splitChars_no_sep '/' p g hmem⟩

/-- Helper: one resolution step preserves segment well-formedness. -/
theorem stepSeg_good (allow : Bool) (acc : List (List Char)) (s : List Char)
    (hacc : ∀ g ∈ acc, goodSeg g) (hs : goodSeg s) :
    ∀ g ∈ stepSeg allow acc s, goodSeg g := by
  intro g hg
  unfold stepSeg at hg
  by_cases hdd : s = ['.', '.']
  · rw [if_pos hdd] at hg
    rcases acc with _ | ⟨l, rest⟩
    · dsimp only at hg
      split at hg
      · simp only [List.mem_singleton] at hg
        subst hg; exact hs
      · simp at hg
    · dsimp only at hg
      split at hg
      · split at hg
        · rcases List.mem_cons.mp hg with h | h
          · subst h; exact hs
          · exact hacc g h
        · exact hacc g hg
      · exact hacc g (List.mem_cons.mpr (Or.inr hg))
  · rw [if_neg hdd] at hg
    rcases List.mem_cons.mp hg with h | h
    · subst h; exact hs
    · exact hacc g h

/-- Helper: the resolution fold preserves segment well-formedness. -/
theorem foldl_stepSeg_good (allow : Bool) (ss : List (List Char)) :
    ∀ acc : List (List Char), (∀ g ∈ acc, goodSeg g) → (∀ g ∈ ss, goodSeg g) →
      ∀ g ∈ ss.foldl (stepSeg allow) acc, goodSeg g := by
  induction ss with
  | nil =>
    intro acc hacc _ g hg
    exact hacc g hg
  | cons s ss ih =>
    intro acc hacc hss g hg
    simp only [List.foldl_cons] at hg
    exact ih (stepSeg allow acc s)
      (stepSeg_good allow acc s hacc (hss s (List.mem_cons_self s ss)))
      (fun g2 hg2 => hss g2 (List.mem_cons.mpr (Or.inr hg2))) g hg

/-- Helper: every segment of `normSegs` is well formed. -/
theorem normSegs_good (allow : Bool) (p : List Char) :
    ∀ g ∈ normSegs allow p, goodSeg g := by
  intro g hg
  unfold normSegs at hg
  rw [List.mem_reverse] at hg
  exact foldl_stepSeg_good allow (segsOf p) [] (by simp) (segsOf_good p) g hg

/-- Helper: joining well-formed segments yields a list whose head is not the
separator. -/
theorem joinSegs_head_not_sep (segs : List (List Char))
    (hgood : ∀ g ∈ segs, goodSeg g) (hne : segs ≠ []) :
    ∃ c cs, joinSegs segs = c :: cs ∧ c ≠ '/' := by
  rcases segs with _ | ⟨s, rest⟩
  · exact absurd rfl hne
  · have hs := hgood s (List.mem_cons_self s rest)
    have hform : ∃ t, joinSegs (s :: rest) = s ++ t := by
      rcases rest with _ | ⟨s2, r2⟩
      · exact ⟨[], by simp [joinSegs]⟩
      · exact ⟨'/' :: joinSegs (s2 :: r2), by simp [joinSegs]⟩
    obtain ⟨t, ht⟩ := hform
    rcases s with _ | ⟨c0, s1⟩
    · exact absurd rfl hs.1
    · refine ⟨c0, s1 ++ t, by simp [ht], fun hc => hs.2 ?_⟩
      rw [← hc]
      exact List.mem_cons_self c0 s1

/-- Helper: the reassembled normalized path never starts with two
separators. -/
theorem assembleNorm_no_double (isAbs trail : Bool) (body : List Char)
    (hbody : body = [] ∨ ∃ c cs, body = c :: cs ∧ c ≠ '/') :
    ∀ rest, assembleNorm isAbs trail body ≠ '/' :: '/' :: rest := by
  intro rest
  unfold assembleNorm
  rcases hbody with hb | ⟨c, cs, hb, hc⟩
  · subst hb
    rw [if_pos rfl]
    cases isAbs <;> cases trail <;> simp
  · subst hb
    rw [if_neg (by simp)]
    cases isAbs <;> cases trail <;> simp_all

/-- Helper: `normChars` never produces a path starting with two separators. -/
theorem normChars_no_double (p : List Char) :
    ∀ rest, normChars p ≠ '/' :: '/' :: rest := by
  intro rest
  unfold normChars
  split
  · simp
  · dsimp only
    apply assembleNorm_no_double
    by_cases hsegs : normSegs (!(p.head? == some '/')) p = []
    · left
      rw [hsegs]
      rfl
    · right
      exact joinSegs_head_not_sep _ (normSegs_good _ p) hsegs

/-- Helper: `path.posix.join` never produces a path starting with two
separators. -/
theorem jsJoin2_no_double (a b : String) :
    ∀ rest, (jsJoin2 a b).data ≠ '/' :: '/' :: rest := by
  intro rest
  unfold jsJoin2
  split
  · simp [String.data]
  · exact normChars_no_double _ rest

/-- Helper: stripping one leading separator is idempotent on a path that does
not start with two separators. -/
theorem strip_idem_of_no_double (l : List Char)
    (h : ∀ rest, l ≠ '/' :: '/' :: rest) :
    stripLeadingSep (stripLeadingSep l) = stripLeadingSep l := by
  rcases l with _ | ⟨c, rest⟩
  · rfl
  · by_cases hc : c = '/'
    · subst hc
      rcases rest with _ | ⟨c2, rest2⟩
      · rfl
      · have hc2 : c2 ≠ '/' := fun he => h rest2 (by rw [he])
        simp [stripLeadingSep, hc2]
    · simp [stripLeadingSep, hc]

/-- Helper: `List.any` is invariant under permutation of the list. -/
theorem perm_any {α : Type} {l1 l2 : List α} (h : l1.Perm l2) (f : α → Bool) :
    l1.any f = l2.any f := by
  induction h with
  | nil => rfl
  | cons a _ ih => simp [List.any_cons, ih]
  | swap a b l => simp [List.any_cons, Bool.or_left_comm]
  | trans _ _ ih1 ih2 => rw [ih1, ih2]

/-- Helper: when one strip is a fixpoint, the stateful `some`-loop of
`_exclude` equals a plain existence test of the patterns over the stripped
path. -/
theorem excludeSome_eq_any (rmatch : String → String → Bool) (pats : List String)
    (r : List Char)
    (hidem : stripLeadingSep (stripLeadingSep r) = stripLeadingSep r) :
    excludeSome rmatch pats r
      = pats.any (fun pat => rmatch pat (String.mk (stripLeadingSep r))) := by
  induction pats generalizing r with
  | nil => rfl
  | cons pat rest ih =>
    simp only [excludeSome, List.any_cons]
    have hrec := ih (stripLeadingSep r) (by rw [hidem]; exact hidem)
    rw [hidem] at hrec
    by_cases hm : rmatch pat (String.mk (stripLeadingSep r)) = true
    · rw [if_pos hm, hm]
      rfl
    · rw [if_neg hm, hrec]
      rw [Bool.not_eq_true] at hm
      rw [hm, Bool.false_or]

/-- Claim C6: the exclusion matcher returns false for every candidate when
the pattern list is empty (absent or `[]`); with patterns it excludes a
candidate exactly when some pattern matches the candidate path taken
relative to the packaging root with one leading separator stripped (the
strip is a fixpoint because a joined path never starts with two separators);
and the Boolean result is invariant under permutation of the pattern list. -/
theorem exclude_rule_semantics (pats : List String)
    (pathDist name prefixPath : String) (rmatch : String → String → Bool) :
    (excludeFn none pathDist rmatch name prefixPath = false
      ∧ excludeFn (some []) pathDist rmatch name prefixPath = false)
    ∧ excludeFn (some pats) pathDist rmatch name prefixPath
        = pats.any (fun pat => rmatch pat (relCandidate pathDist prefixPath name))
    ∧ (∀ pats2, pats.Perm pats2 →
        excludeFn (some pats) pathDist rmatch name prefixPath
          = excludeFn (some pats2) pathDist rmatch name prefixPath) := by
  have key : ∀ ps : List String,
      excludeFn (some ps) pathDist rmatch name prefixPath
        = ps.any (fun pat => rmatch pat (relCandidate pathDist prefixPath name)) := by
    intro ps
    rcases ps with _ | ⟨p0, ps1⟩
    · rfl
    · unfold excludeFn
      dsimp only [Option.getD]
      rw [if_neg (by simp)]
      rw [excludeSome_eq_any rmatch (p0 :: ps1) _
        (strip_idem_of_no_double _ (jsJoin2_no_double _ _))]
      rfl
  refine ⟨⟨rfl, rfl⟩, key pats, ?_⟩
  intro pats2 hperm
  rw [key pats, key pats2]
  exact perm_any hperm _

/-- Claim C6, witness: at a concrete candidate, the anchored pattern
`^tests/` excludes `tests/foo.js` regardless of its position in the pattern
list. -/
theorem exclude_rule_semantics_check :
    excludeFn (some ["^tests/", "zzz"]) "/d" rmTests "foo.js" "/d/tests"
      = excludeFn (some ["zzz", "^tests/"]) "/d" rmTests "foo.js" "/d/tests"
    ∧ excludeFn (some ["^tests/", "zzz"]) "/d" rmTests "foo.js" "/d/tests" = true :=
  ⟨(exclude_rule_semantics ["^tests/", "zzz"] "/d" "foo.js" "/d/tests" rmTests).2.2
      ["zzz", "^tests/"] (by decide),
   ((exclude_rule_semantics ["^tests/", "zzz"] "/d" "foo.js" "/d/tests"
      rmTests).2.1).trans (by decide)⟩
